import Mathlib

/-!
# Verification of the RecruTakeHR interview-kit post-processing pipeline

Shallow embedding of the deterministic core of the repository:

* the rubric-weight sanitization and normalization performed in
  `generateInterviewKitFlow` (src/src/ai/flows/generate-interview-kit.ts,
  two source variants separated by a document marker) and
  `customizeInterviewKitFlow` (src/src/ai/flows/customize-interview-kit.ts);
* the output sanitizer that fills defaults and assigns identifiers;
* the orchestrator's error path when the model returns no output.

Modelling conventions:

* JavaScript numbers are modelled as exact rationals (`ℚ`).  `NaN` and the
  infinities, which matter because `typeof w === 'number'` is true for them,
  are modelled by the dedicated type `JsNum`.
* `parseFloat(x.toFixed(2))` on a nonnegative number is decimal
  round-half-up to 2 places, modelled by `round2`.  Every argument of
  `toFixed` in the source is nonnegative (clamped weights, `max(0, ...)`).
* JavaScript `x || d` on a number is `jsOrNum` (`0` is falsy), on a string
  `jsOrStr` (`""` is falsy); a missing field is `Option.none`.
* The awaited model call is an explicit `Option` parameter of the flow
  functions: `none` models "the model produced no structured output".
* `crypto.randomUUID()` is an external collaborator; the generated
  identifier is an explicit `fresh : String` parameter.
-/

/-- Question `type` enum from the zod schemas. -/
inductive QuestionType where
  | Technical | Scenario | Behavioral
deriving DecidableEq, Repr

/-- Question `category` enum from the zod schemas. -/
inductive QuestionCategory where
  | Technical | NonTechnical
deriving DecidableEq, Repr

/-- Question `difficulty` enum from the zod schemas. -/
inductive QuestionDifficulty where
  | Naive | Beginner | Intermediate | Expert | Master
deriving DecidableEq, Repr

/-- Competency `importance` enum from the zod schemas. -/
inductive Importance where
  | High | Medium | Low
deriving DecidableEq, Repr

/-- `difficultyTimeMap` from both flow files: the fixed lookup table keyed by
difficulty, used when the model omits `estimatedTimeMinutes`. -/
def difficultyTimeMap : QuestionDifficulty → ℚ
  | .Naive => 2
  | .Beginner => 4
  | .Intermediate => 6
  | .Expert => 8
  | .Master => 10

/-- A JavaScript number: finite value, `NaN`, or an infinity. -/
inductive JsNum where
  | fin (q : ℚ) | nan | posInf | negInf
deriving DecidableEq, Repr

/-- `Math.min` on two numbers: `NaN` if either argument is `NaN`. -/
def jsMin : JsNum → JsNum → JsNum
  | .nan, _ => .nan
  | _, .nan => .nan
  | .negInf, _ => .negInf
  | _, .negInf => .negInf
  | .posInf, b => b
  | a, .posInf => a
  | .fin a, .fin b => .fin (min a b)

/-- `Math.max` on two numbers: `NaN` if either argument is `NaN`. -/
def jsMax : JsNum → JsNum → JsNum
  | .nan, _ => .nan
  | _, .nan => .nan
  | .posInf, _ => .posInf
  | _, .posInf => .posInf
  | .negInf, b => b
  | a, .negInf => a
  | .fin a, .fin b => .fin (max a b)

/-- Weight sanitization of generate-variant-1 (line 165) and the customize
flow (line 140):
`typeof crit.weight === 'number' ? Math.max(0, Math.min(1, crit.weight)) : 0.2`.
A missing or non-numeric weight is `none`; `NaN` and the infinities have
JavaScript type `'number'` and therefore take the clamp branch. -/
def sanitizeWeight : Option JsNum → JsNum
  | some w => jsMax (.fin 0) (jsMin (.fin 1) w)
  | none => .fin (1/5)

/-- Clamp of a finite weight into `[0,1]`, the numeric content of
`Math.max(0, Math.min(1, w))`. -/
def clampQ (q : ℚ) : ℚ := max 0 (min 1 q)

/-- `Math.abs`. -/
def jsAbs (q : ℚ) : ℚ := if q < 0 then -q else q

/-- `parseFloat(x.toFixed(2))` for nonnegative `x`: decimal round-half-up to
two places, `⌊x·100 + 1/2⌋ / 100`. -/
def round2 (q : ℚ) : ℚ := (⌊q * 100 + 1/2⌋ : ℚ) / 100

/-- A rational that is an integer number of hundredths — the form of every
value produced by `round2`. -/
def IsCent (q : ℚ) : Prop := ∃ k : ℤ, q = (k : ℚ) / 100

/-- JavaScript `x || d` for an optional number `x` (`0` is falsy). -/
def jsOrNum (x : Option ℚ) (d : ℚ) : ℚ :=
  match x with
  | none => d
  | some t => if t = 0 then d else t

/-- JavaScript `x || d` for an optional string `x` (`""` is falsy). -/
def jsOrStr (x : Option String) (d : String) : String :=
  match x with
  | none => d
  | some s => if s = "" then d else s

/-- The final rounding pass of the normalizer (generate variant 1 lines
184-195, variant 2 lines 391-402, customize lines 159-170): every weight but
the last is rounded to 2 decimals while a running sum is accumulated, and the
last weight becomes `parseFloat(Math.max(0, 1.0 - runningSum).toFixed(2))`. -/
def roundingPass (ws : List ℚ) : List ℚ :=
  if ws.isEmpty then ws
  else
    (ws.dropLast.map round2) ++ [round2 (max 0 (1 - (ws.dropLast.map round2).sum))]

/-- The rescaling step of the normalizer: if the weights sum to `0` every
item gets the equal weight `1.0 / count`, otherwise every weight is
multiplied by `factor = 1.0 / totalWeight`. -/
def rescale (ws : List ℚ) : List ℚ :=
  if ws.sum = 0 then ws.map (fun _ => 1 / (ws.length : ℚ))
  else ws.map (fun w => w * (1 / ws.sum))

/-- The rubric-weight normalizer (generate variant 1 lines 169-196, variant 2
lines 375-404, customize lines 144-171): when the list is non-empty and the
total weight differs from `1.0` by more than `0.001`, rescale and run the
rounding pass; otherwise the list is left untouched. -/
def normalizeWeights (ws : List ℚ) : List ℚ :=
  if 0 < ws.length ∧ 1/1000 < jsAbs (ws.sum - 1) then roundingPass (rescale ws)
  else ws

/-- The `runningSum` of the source's rounding pass: sum of the rounded
all-but-last prefix. -/
def roundedPrefixSum (ws : List ℚ) : ℚ := (ws.dropLast.map round2).sum

/-- Sanitization (clamping) of finite weights followed by normalization: the
composite the flows apply to the rubric weights of the model's raw output. -/
def sanitizeThenNormalize (ws : List ℚ) : List ℚ :=
  normalizeWeights (ws.map clampQ)

/-- Extracts the list of finite values of a weight list, `none` if some
entry is not finite. -/
def allFinQ : List JsNum → Option (List ℚ)
  | [] => some []
  | .fin q :: rest => (allFinQ rest).map (fun l => q :: l)
  | _ :: _ => none

/-- The normalizer acting on JavaScript numbers.  In the source, a `NaN`
among the sanitized weights makes `totalWeight` `NaN`, so the branch guard
`Math.abs(totalWeight - 1.0) > 0.001` is false (`NaN` comparisons are false)
and the list is returned untouched; when every weight is finite the
computation is the exact rational `normalizeWeights`.  Sanitized weights are
always finite or `NaN`, never infinite, so no infinity case arises. -/
def jsNormalizeWeights (ws : List JsNum) : List JsNum :=
  match allFinQ ws with
  | some qs => (normalizeWeights qs).map .fin
  | none => ws

/-! ## Generate flow, variant 1 (generate-interview-kit.ts lines 1-200)

The raw model output distrusted by the sanitizer: any field may be absent. -/

/-- Raw question of generate variant 1 (schema lines 35-42). -/
structure RawGenV1Question where
  question : Option String
  answer : Option String
  type : Option QuestionType
  category : Option QuestionCategory
  difficulty : Option QuestionDifficulty
  estimatedTimeMinutes : Option ℚ
deriving DecidableEq, Repr

/-- Raw competency of generate variant 1 (schema lines 44-48). -/
structure RawGenV1Competency where
  name : Option String
  importance : Option Importance
  questions : Option (List RawGenV1Question)
deriving DecidableEq, Repr

/-- Raw scoring criterion of generate variant 1 (schema lines 50-53). -/
structure RawGenV1Criterion where
  criterion : Option String
  weight : Option JsNum
deriving DecidableEq, Repr

/-- Raw output of generate variant 1 (schema lines 55-60). -/
structure RawGenV1Output where
  competencies : Option (List RawGenV1Competency)
  scoringRubric : Option (List RawGenV1Criterion)
deriving DecidableEq, Repr

/-- Sanitized question of generate variant 1. -/
structure GenV1Question where
  question : String
  answer : String
  type : QuestionType
  category : QuestionCategory
  difficulty : QuestionDifficulty
  estimatedTimeMinutes : ℚ
deriving DecidableEq, Repr

/-- Sanitized competency of generate variant 1. -/
structure GenV1Competency where
  name : String
  importance : Importance
  questions : List GenV1Question
deriving DecidableEq, Repr

/-- Sanitized scoring criterion of generate variant 1. -/
structure GenV1Criterion where
  criterion : String
  weight : JsNum
deriving DecidableEq, Repr

/-- Sanitized kit of generate variant 1. -/
structure GenV1Kit where
  competencies : List GenV1Competency
  scoringRubric : List GenV1Criterion
deriving DecidableEq, Repr

/-- Question sanitization of generate variant 1 (lines 154-161).  Note line
158: `q.category || (q.type === 'Technical' ? 'Non-Technical' : 'Non-Technical')`
has the same string in both branches of the conditional; it is transcribed
verbatim. -/
def sanitizeGenV1Question (q : RawGenV1Question) : GenV1Question :=
  { question := jsOrStr q.question "Missing question text"
    answer := jsOrStr q.answer "Missing model answer. (Guidance: For the interviewer, list 3-4 brief, crisp bullet points of key elements a strong candidate should cover, with indicative marks for each, e.g., \x27approx. 2-3 points\x27. Note how to evaluate off-resume info.)"
    type := q.type.getD .Behavioral
    category := q.category.getD
      (if q.type = some .Technical then .NonTechnical else .NonTechnical)
    difficulty := q.difficulty.getD .Intermediate
    estimatedTimeMinutes :=
      jsOrNum q.estimatedTimeMinutes (difficultyTimeMap (q.difficulty.getD .Intermediate)) }

/-- Competency sanitization of generate variant 1 (lines 151-162). -/
def sanitizeGenV1Competency (c : RawGenV1Competency) : GenV1Competency :=
  { name := jsOrStr c.name "Unnamed Competency"
    importance := c.importance.getD .Medium
    questions := (c.questions.getD []).map sanitizeGenV1Question }

/-- Criterion sanitization of generate variant 1 (lines 163-166). -/
def sanitizeGenV1Criterion (c : RawGenV1Criterion) : GenV1Criterion :=
  { criterion := jsOrStr c.criterion "Unnamed Criterion (must be well-defined, distinct, high-quality, actionable, measurable, and contextually reference JD/resume/projects/education/context for comprehensive evaluation). AI should refine this."
    weight := sanitizeWeight c.weight }

/-- In-place weight renormalization of a sanitized rubric: ids and names are
untouched, the weight column is replaced by its normalized value. -/
def normalizeRubricGenV1 (crits : List GenV1Criterion) : List GenV1Criterion :=
  List.zipWith (fun c w => ⟨c.criterion, w⟩) crits
    (jsNormalizeWeights (crits.map (fun c => c.weight)))

/-- `generateInterviewKitFlow`, variant 1 (lines 143-199): `none` models "the
model produced no structured output" and yields the thrown error; otherwise
the raw output is sanitized and its rubric weights are normalized. -/
def generateInterviewKitFlowV1 (o : Option RawGenV1Output) : Except String GenV1Kit :=
  match o with
  | none => .error "AI failed to generate interview kit content."
  | some output =>
      .ok { competencies := (output.competencies.getD []).map sanitizeGenV1Competency
            scoringRubric :=
              normalizeRubricGenV1 ((output.scoringRubric.getD []).map sanitizeGenV1Criterion) }

/-! ## Customize flow, variant 1 (customize-interview-kit.ts lines 1-175)

The zod output schema requires the `id` fields (they "must be preserved from
the input"), and the post-processing reads them without a default, so they
are non-optional here; every defaulted field is optional. -/

/-- Raw question of the customize flow (schema lines 25-34). -/
structure RawCustQuestion where
  id : String
  question : Option String
  interviewerNote : Option String
  modelAnswer : Option String
  type : Option QuestionType
  category : Option QuestionCategory
  difficulty : Option QuestionDifficulty
  estimatedTimeMinutes : Option ℚ
deriving DecidableEq, Repr

/-- Raw competency of the customize flow (schema lines 36-41). -/
structure RawCustCompetency where
  id : String
  name : Option String
  importance : Option Importance
  questions : Option (List RawCustQuestion)
deriving DecidableEq, Repr

/-- Raw rubric criterion of the customize flow (schema lines 43-47). -/
structure RawCustCriterion where
  id : String
  name : Option String
  weight : Option JsNum
deriving DecidableEq, Repr

/-- Raw output of the customize flow (schema lines 62-65). -/
structure RawCustOutput where
  competencies : Option (List RawCustCompetency)
  scoringRubric : Option (List RawCustCriterion)
deriving DecidableEq, Repr

/-- Sanitized question of the customize flow. -/
structure CustQuestion where
  id : String
  question : String
  interviewerNote : String
  modelAnswer : String
  type : QuestionType
  category : QuestionCategory
  difficulty : QuestionDifficulty
  estimatedTimeMinutes : ℚ
deriving DecidableEq, Repr

/-- Sanitized competency of the customize flow. -/
structure CustCompetency where
  id : String
  name : String
  importance : Importance
  questions : List CustQuestion
deriving DecidableEq, Repr

/-- Sanitized rubric criterion of the customize flow. -/
structure CustCriterion where
  id : String
  name : String
  weight : JsNum
deriving DecidableEq, Repr

/-- Sanitized kit of the customize flow. -/
structure CustKit where
  competencies : List CustCompetency
  scoringRubric : List CustCriterion
deriving DecidableEq, Repr

/-- Question sanitization of the customize flow (lines 126-135); the id is
copied from the model's raw output (`id: q.id, // Preserve ID`). -/
def sanitizeCustQuestion (q : RawCustQuestion) : CustQuestion :=
  { id := q.id
    question := jsOrStr q.question "Missing question text"
    interviewerNote := jsOrStr q.interviewerNote "Assess candidate based on their response clarity, depth, and relevance to the role."
    modelAnswer := jsOrStr q.modelAnswer "Missing model answer."
    type := q.type.getD .Behavioral
    category := q.category.getD
      (if q.type = some .Technical then .Technical else .NonTechnical)
    difficulty := q.difficulty.getD .Intermediate
    estimatedTimeMinutes :=
      jsOrNum q.estimatedTimeMinutes (difficultyTimeMap (q.difficulty.getD .Intermediate)) }

/-- Competency sanitization of the customize flow (lines 122-136). -/
def sanitizeCustCompetency (c : RawCustCompetency) : CustCompetency :=
  { id := c.id
    name := jsOrStr c.name "Unnamed Competency"
    importance := c.importance.getD .Medium
    questions := (c.questions.getD []).map sanitizeCustQuestion }

/-- Criterion sanitization of the customize flow (lines 137-141). -/
def sanitizeCustCriterion (c : RawCustCriterion) : CustCriterion :=
  { id := c.id
    name := jsOrStr c.name "Unnamed Criterion (must be well-defined, distinct, high-quality, actionable, measurable, and contextually reference JD/resume/projects/education/context for comprehensive evaluation). AI should refine this."
    weight := sanitizeWeight c.weight }

/-- In-place weight renormalization of a sanitized customize rubric. -/
def normalizeRubricCust (crits : List CustCriterion) : List CustCriterion :=
  List.zipWith (fun c w => ⟨c.id, c.name, w⟩) crits
    (jsNormalizeWeights (crits.map (fun c => c.weight)))

/-- Sanitization of a whole raw customize output (lines 121-142), before the
rubric renormalization. -/
def sanitizeCustOutput (o : RawCustOutput) : CustKit :=
  { competencies := (o.competencies.getD []).map sanitizeCustCompetency
    scoringRubric := (o.scoringRubric.getD []).map sanitizeCustCriterion }

/-- The customize post-processing: sanitization (lines 121-142) followed by
the rubric renormalization (lines 144-171). -/
def postProcessCust (o : RawCustOutput) : CustKit :=
  { competencies := (sanitizeCustOutput o).competencies
    scoringRubric := normalizeRubricCust (sanitizeCustOutput o).scoringRubric }

/-- The caller-supplied input of the customize flow (schema lines 49-57): the
previously generated kit plus the original context.  The flow's
post-processing never reads it; it is only sent to the model. -/
structure CustomizeInput where
  jobDescription : String
  unstopProfileLink : String
  candidateResumeDataUri : Option String
  candidateResumeFileName : Option String
  candidateExperienceContext : Option String
  competencies : List CustCompetency
  scoringRubric : List CustCriterion
deriving DecidableEq, Repr

/-- `customizeInterviewKitFlow` (lines 114-174): the model response is the
`Option` parameter; `none` yields the thrown error.  The post-processing
depends only on the model's output, never on `inp`. -/
def customizeInterviewKitFlow (_inp : CustomizeInput) (o : Option RawCustOutput) :
    Except String CustKit :=
  match o with
  | none => .error "AI failed to customize interview kit content."
  | some output => .ok (postProcessCust output)

/-! ## Generate flow, variant 2 (generate-interview-kit.ts lines 202-408)

This variant assigns `randomUUID()` identifiers to every entity and filters
rubric criteria lacking a truthy name or a numeric weight. -/

/-- Raw question of generate variant 2 (schema lines 236-245). -/
structure RawGenV2Question where
  id : Option String
  question : Option String
  interviewerNote : Option String
  modelAnswer : Option String
  type : Option QuestionType
  category : Option QuestionCategory
  difficulty : Option QuestionDifficulty
  estimatedTimeMinutes : Option ℚ
deriving DecidableEq, Repr

/-- Raw competency of generate variant 2 (schema lines 247-252). -/
structure RawGenV2Competency where
  id : Option String
  name : Option String
  importance : Option Importance
  questions : Option (List RawGenV2Question)
deriving DecidableEq, Repr

/-- Raw rubric criterion of generate variant 2 (schema lines 254-258). -/
structure RawGenV2Criterion where
  id : Option String
  name : Option String
  weight : Option JsNum
deriving DecidableEq, Repr

/-- Raw output of generate variant 2 (schema lines 260-266). -/
structure RawGenV2Output where
  competencies : Option (List RawGenV2Competency)
  scoringRubric : Option (List RawGenV2Criterion)
deriving DecidableEq, Repr

/-- Sanitized question of generate variant 2. -/
structure GenV2Question where
  id : String
  question : String
  interviewerNote : String
  modelAnswer : String
  type : QuestionType
  category : QuestionCategory
  difficulty : QuestionDifficulty
  estimatedTimeMinutes : ℚ
deriving DecidableEq, Repr

/-- Sanitized competency of generate variant 2. -/
structure GenV2Competency where
  id : String
  name : String
  importance : Importance
  questions : List GenV2Question
deriving DecidableEq, Repr

/-- Sanitized rubric criterion of generate variant 2. -/
structure GenV2Criterion where
  id : String
  name : String
  weight : JsNum
deriving DecidableEq, Repr

/-- Sanitized kit of generate variant 2. -/
structure GenV2Kit where
  competencies : List GenV2Competency
  scoringRubric : List GenV2Criterion
deriving DecidableEq, Repr

/-- Question sanitization of generate variant 2 (lines 355-364); `fresh`
stands for the `randomUUID()` result.  Line 361 derives a missing category as
`q.type === 'Technical' ? 'Technical' : 'Non-Technical'`. -/
def sanitizeGenV2Question (fresh : String) (q : RawGenV2Question) : GenV2Question :=
  { id := fresh
    question := jsOrStr q.question "Missing question text"
    interviewerNote := jsOrStr q.interviewerNote "Assess candidate based on their response clarity, depth, and relevance to the role."
    modelAnswer := jsOrStr q.modelAnswer "Missing model answer."
    type := q.type.getD .Behavioral
    category := q.category.getD
      (if q.type = some .Technical then .Technical else .NonTechnical)
    difficulty := q.difficulty.getD .Intermediate
    estimatedTimeMinutes :=
      jsOrNum q.estimatedTimeMinutes (difficultyTimeMap (q.difficulty.getD .Intermediate)) }

/-- Competency sanitization of generate variant 2 (lines 351-365). -/
def sanitizeGenV2Competency (fresh : String) (c : RawGenV2Competency) : GenV2Competency :=
  { id := fresh
    name := jsOrStr c.name "Unnamed Competency"
    importance := c.importance.getD .Medium
    questions := (c.questions.getD []).map (sanitizeGenV2Question fresh) }

/-- The rubric filter of generate variant 2 (line 367):
`crit && crit.name && typeof crit.weight === 'number'`. -/
def genV2CriterionKeep (c : RawGenV2Criterion) : Bool :=
  (match c.name with | some n => n ≠ "" | none => false) && c.weight.isSome

/-- Rubric sanitization of generate variant 2 (lines 366-372): kept criteria
get a fresh id, the asserted name (`crit.name!`) and the clamped weight
(`Math.max(0, Math.min(1, crit.weight!))`); the non-null assertions are
modelled by `getD` defaults that the filter makes unreachable. -/
def sanitizeGenV2Criterion (fresh : String) (c : RawGenV2Criterion) : GenV2Criterion :=
  { id := fresh
    name := c.name.getD ""
    weight := jsMax (.fin 0) (jsMin (.fin 1) (c.weight.getD (.fin 0))) }

/-- Sanitization of a whole raw generate-variant-2 output (lines 350-373). -/
def sanitizeGenV2 (fresh : String) (o : RawGenV2Output) : GenV2Kit :=
  { competencies := (o.competencies.getD []).map (sanitizeGenV2Competency fresh)
    scoringRubric :=
      ((o.scoringRubric.getD []).filter genV2CriterionKeep).map (sanitizeGenV2Criterion fresh) }

/-! ## Spec-side predicates

`ProvidedOr raw d v` says the sanitized field value `v` is "either the value
the model provided or the documented default", the wording of the spec's
Sanitizer-totality property (spec section 8). -/

/-- The sanitized value is the provided one or the documented default. -/
def ProvidedOr {α : Type} (raw : Option α) (d v : α) : Prop :=
  raw = some v ∨ v = d

/-- Spec section 8 totality property, per customize question: id copied,
every other required field provided-or-defaulted (the category default is
derived from the question type, the time default from the difficulty
table). -/
def CustQuestionPopulated (raw : RawCustQuestion) (q : CustQuestion) : Prop :=
  q.id = raw.id ∧
  ProvidedOr raw.question "Missing question text" q.question ∧
  ProvidedOr raw.interviewerNote "Assess candidate based on their response clarity, depth, and relevance to the role." q.interviewerNote ∧
  ProvidedOr raw.modelAnswer "Missing model answer." q.modelAnswer ∧
  ProvidedOr raw.type .Behavioral q.type ∧
  ProvidedOr raw.category
    (if raw.type = some .Technical then .Technical else .NonTechnical) q.category ∧
  ProvidedOr raw.difficulty .Intermediate q.difficulty ∧
  ProvidedOr raw.estimatedTimeMinutes
    (difficultyTimeMap (raw.difficulty.getD .Intermediate)) q.estimatedTimeMinutes

/-- Spec section 8 totality property, per customize competency. -/
def CustCompetencyPopulated (raw : RawCustCompetency) (c : CustCompetency) : Prop :=
  c.id = raw.id ∧
  ProvidedOr raw.name "Unnamed Competency" c.name ∧
  ProvidedOr raw.importance .Medium c.importance ∧
  ∀ q ∈ c.questions, ∃ rq ∈ raw.questions.getD [], CustQuestionPopulated rq q

/-- Spec section 8 totality property, per customize rubric criterion: id
copied, name provided-or-defaulted, weight the documented sanitization of the
provided weight. -/
def CustCriterionPopulated (raw : RawCustCriterion) (c : CustCriterion) : Prop :=
  c.id = raw.id ∧
  ProvidedOr raw.name "Unnamed Criterion (must be well-defined, distinct, high-quality, actionable, measurable, and contextually reference JD/resume/projects/education/context for comprehensive evaluation). AI should refine this." c.name ∧
  c.weight = sanitizeWeight raw.weight

/-- Spec section 8 totality property for a sanitized customize kit: every
entity originates from a raw entity with all required fields populated. -/
def CustKitPopulated (o : RawCustOutput) (kit : CustKit) : Prop :=
  (∀ c ∈ kit.competencies, ∃ rc ∈ o.competencies.getD [], CustCompetencyPopulated rc c) ∧
  ∀ cr ∈ kit.scoringRubric, ∃ rr ∈ o.scoringRubric.getD [], CustCriterionPopulated rr cr

/-- Spec section 8 totality property, per generate-variant-2 question: a
fresh non-empty id is assigned, the other fields follow the customize
pattern. -/
def GenV2QuestionPopulated (fresh : String) (raw : RawGenV2Question) (q : GenV2Question) : Prop :=
  q.id = fresh ∧
  ProvidedOr raw.question "Missing question text" q.question ∧
  ProvidedOr raw.interviewerNote "Assess candidate based on their response clarity, depth, and relevance to the role." q.interviewerNote ∧
  ProvidedOr raw.modelAnswer "Missing model answer." q.modelAnswer ∧
  ProvidedOr raw.type .Behavioral q.type ∧
  ProvidedOr raw.category
    (if raw.type = some .Technical then .Technical else .NonTechnical) q.category ∧
  ProvidedOr raw.difficulty .Intermediate q.difficulty ∧
  ProvidedOr raw.estimatedTimeMinutes
    (difficultyTimeMap (raw.difficulty.getD .Intermediate)) q.estimatedTimeMinutes

/-- Spec section 8 totality property, per generate-variant-2 competency. -/
def GenV2CompetencyPopulated (fresh : String) (raw : RawGenV2Competency)
    (c : GenV2Competency) : Prop :=
  c.id = fresh ∧
  ProvidedOr raw.name "Unnamed Competency" c.name ∧
  ProvidedOr raw.importance .Medium c.importance ∧
  ∀ q ∈ c.questions, ∃ rq ∈ raw.questions.getD [], GenV2QuestionPopulated fresh rq q

/-- Spec section 8 totality property, per generate-variant-2 rubric
criterion: fresh id, the model-provided non-empty name, the documented
sanitization of the provided weight. -/
def GenV2CriterionPopulated (fresh : String) (raw : RawGenV2Criterion)
    (c : GenV2Criterion) : Prop :=
  c.id = fresh ∧ raw.name = some c.name ∧ c.name ≠ "" ∧
  ∃ w, raw.weight = some w ∧ c.weight = sanitizeWeight (some w)

/-- Spec section 8 totality property for a sanitized generate-variant-2
kit. -/
def GenV2KitPopulated (fresh : String) (o : RawGenV2Output) (kit : GenV2Kit) : Prop :=
  (∀ c ∈ kit.competencies, ∃ rc ∈ o.competencies.getD [], GenV2CompetencyPopulated fresh rc c) ∧
  ∀ cr ∈ kit.scoringRubric, ∃ rr ∈ o.scoringRubric.getD [], GenV2CriterionPopulated fresh rr cr

/-- Rubric identifiers carried by a customize-flow result, `none` for the
error case. -/
def custFlowRubricIds (e : Except String CustKit) : Option (List String) :=
  match e with
  | .ok kit => some (kit.scoringRubric.map (fun c => c.id))
  | .error _ => none

/-- Concrete customize-flow input whose rubric criterion has id "a". -/
def c9Input : CustomizeInput :=
  ⟨"jd", "link", none, none, none, [], [⟨"a", "Communication", .fin 1⟩]⟩

/-- Concrete model response to `c9Input` in which the model replaced the
criterion id "a" by "b". -/
def c9ModelOutput : RawCustOutput :=
  ⟨some [], some [⟨"b", some "Communication", some (.fin 1)⟩]⟩

/-! ## Helper lemmas about rounding and the normalizer -/

theorem jsAbs_eq_abs (q : ℚ) : jsAbs q = |q| := by
  unfold jsAbs
  rcases lt_or_le q 0 with h | h
  · rw [if_pos h, abs_of_neg h]
  · rw [if_neg (not_lt.mpr h), abs_of_nonneg h]

theorem round2_le (q : ℚ) : round2 q ≤ q + 1/200 := by
  have h := Int.floor_le (q * 100 + 1/2)
  unfold round2
  rw [div_le_iff₀ (by norm_num : (0:ℚ) < 100)]
  linarith

theorem round2_nonneg {q : ℚ} (h : 0 ≤ q) : 0 ≤ round2 q := by
  have h0 : (0 : ℤ) ≤ ⌊q * 100 + 1/2⌋ := by
    rw [Int.le_floor]
    push_cast
    linarith
  unfold round2
  positivity

theorem round2_le_one {q : ℚ} (h : q ≤ 1) : round2 q ≤ 1 := by
  have h1 : ⌊q * 100 + 1/2⌋ ≤ ⌊(201/2 : ℚ)⌋ := Int.floor_le_floor (by linarith)
  have h2 : ⌊(201/2 : ℚ)⌋ = 100 := by norm_num
  unfold round2
  rw [div_le_one (by norm_num : (0:ℚ) < 100)]
  exact_mod_cast h1.trans_eq h2

theorem isCent_round2 (q : ℚ) : IsCent (round2 q) := ⟨⌊q * 100 + 1/2⌋, rfl⟩

theorem round2_of_isCent {q : ℚ} (h : IsCent q) : round2 q = q := by
  obtain ⟨k, rfl⟩ := h
  unfold round2
  have h1 : (k : ℚ) / 100 * 100 + 1/2 = (k : ℚ) + 1/2 := by
    field_simp
  rw [h1, Int.floor_int_add, show ⌊(1/2 : ℚ)⌋ = 0 by norm_num]
  push_cast
  ring

theorem isCent_zero : IsCent 0 := ⟨0, by norm_num⟩

theorem isCent_add {a b : ℚ} (ha : IsCent a) (hb : IsCent b) : IsCent (a + b) := by
  obtain ⟨k, rfl⟩ := ha
  obtain ⟨m, rfl⟩ := hb
  exact ⟨k + m, by push_cast; ring⟩

theorem isCent_one_sub {a : ℚ} (ha : IsCent a) : IsCent (1 - a) := by
  obtain ⟨k, rfl⟩ := ha
  exact ⟨100 - k, by push_cast; ring⟩

theorem isCent_sum_map_round2 (l : List ℚ) : IsCent ((l.map round2).sum) := by
  induction l with
  | nil => simpa using isCent_zero
  | cons a l ih => simpa using isCent_add (isCent_round2 a) ih

theorem sum_map_round2_nonneg {l : List ℚ} (h : ∀ x ∈ l, 0 ≤ x) :
    0 ≤ (l.map round2).sum := by
  refine List.sum_nonneg ?_
  intro x hx
  obtain ⟨a, ha, rfl⟩ := List.mem_map.mp hx
  exact round2_nonneg (h a ha)

theorem sum_map_round2_le (l : List ℚ) :
    (l.map round2).sum ≤ l.sum + l.length / 200 := by
  induction l with
  | nil => simp
  | cons a l ih =>
      have h := round2_le a
      simp only [List.map_cons, List.sum_cons, List.length_cons]
      push_cast
      linarith

theorem sum_map_mul_right (l : List ℚ) (c : ℚ) :
    (l.map (fun w => w * c)).sum = l.sum * c := by
  induction l with
  | nil => simp
  | cons a l ih => simp [ih, add_mul]

theorem length_rescale (ws : List ℚ) : (rescale ws).length = ws.length := by
  unfold rescale
  split <;> simp

theorem rescale_sum {ws : List ℚ} (h : ws ≠ []) : (rescale ws).sum = 1 := by
  have hlen : ws.length ≠ 0 := Nat.pos_iff_ne_zero.mp (List.length_pos.mpr h)
  have hlenQ : ((ws.length : ℚ)) ≠ 0 := Nat.cast_ne_zero.mpr hlen
  unfold rescale
  split
  · rw [List.map_const', List.sum_replicate, nsmul_eq_mul]
    field_simp
  · rw [sum_map_mul_right]
    field_simp

theorem rescale_mem {ws : List ℚ} (hnn : ∀ w ∈ ws, 0 ≤ w) :
    ∀ v ∈ rescale ws, 0 ≤ v ∧ v ≤ 1 := by
  intro v hv
  unfold rescale at hv
  split at hv
  · obtain ⟨w, hw, rfl⟩ := List.mem_map.mp hv
    have hlen : 0 < ws.length := List.length_pos.mpr (List.ne_nil_of_mem hw)
    have h1 : (1 : ℚ) ≤ (ws.length : ℚ) := by exact_mod_cast hlen
    constructor
    · positivity
    · rw [div_le_one (by linarith)]
      linarith
  · obtain ⟨w, hw, rfl⟩ := List.mem_map.mp hv
    rename_i hsum
    have hS : 0 < ws.sum := lt_of_le_of_ne (List.sum_nonneg hnn) (Ne.symm hsum)
    have hwS : w ≤ ws.sum := List.single_le_sum hnn w hw
    constructor
    · have := hnn w hw
      positivity
    · calc w * (1 / ws.sum) ≤ ws.sum * (1 / ws.sum) := by
            apply mul_le_mul_of_nonneg_right hwS
            positivity
        _ = 1 := by field_simp

theorem dropLast_sum_le {ws : List ℚ} (hnn : ∀ w ∈ ws, 0 ≤ w) (h : ws ≠ []) :
    ws.dropLast.sum ≤ ws.sum := by
  conv_rhs => rw [← List.dropLast_append_getLast h]
  have hg : 0 ≤ ws.getLast h := hnn _ (List.getLast_mem h)
  simp only [List.sum_append, List.sum_cons, List.sum_nil]
  linarith

theorem length_roundingPass (ws : List ℚ) : (roundingPass ws).length = ws.length := by
  unfold roundingPass
  split
  · rfl
  · rename_i h
    have h' : ws ≠ [] := by simpa [List.isEmpty_iff] using h
    have : 0 < ws.length := List.length_pos.mpr h'
    simp [List.length_dropLast, Nat.sub_add_cancel this]

theorem roundingPass_sum {ws : List ℚ} (h : ws ≠ []) :
    (roundingPass ws).sum = max 1 (roundedPrefixSum ws) := by
  have hne : ¬ ws.isEmpty := by simpa [List.isEmpty_iff] using h
  have hcent : IsCent ((ws.dropLast.map round2).sum) := isCent_sum_map_round2 _
  unfold roundingPass roundedPrefixSum
  rw [if_neg hne]
  simp only [List.sum_append, List.sum_cons, List.sum_nil, add_zero]
  rcases le_total ((ws.dropLast.map round2).sum) 1 with hle | hgt
  · rw [max_eq_right (by linarith : (0:ℚ) ≤ 1 - (ws.dropLast.map round2).sum),
      round2_of_isCent (isCent_one_sub hcent), max_eq_left hle]
    ring
  · rw [max_eq_left (by linarith : 1 - (ws.dropLast.map round2).sum ≤ (0:ℚ)),
      round2_of_isCent isCent_zero, max_eq_right hgt]
    ring

theorem roundingPass_mem {ws : List ℚ} (hr : ∀ w ∈ ws, 0 ≤ w ∧ w ≤ 1) :
    ∀ v ∈ roundingPass ws, 0 ≤ v ∧ v ≤ 1 := by
  intro v hv
  unfold roundingPass at hv
  split at hv
  · rename_i hemp
    rw [List.isEmpty_iff] at hemp
    subst hemp
    simp at hv
  · have hpre : ∀ w ∈ ws.dropLast, 0 ≤ w ∧ w ≤ 1 := fun w hw =>
      hr w (List.dropLast_subset ws hw)
    rcases List.mem_append.mp hv with hv | hv
    · obtain ⟨w, hw, rfl⟩ := List.mem_map.mp hv
      exact ⟨round2_nonneg (hpre w hw).1, round2_le_one (hpre w hw).2⟩
    · rw [List.mem_singleton.mp hv]
      have hPnn : 0 ≤ (ws.dropLast.map round2).sum :=
        sum_map_round2_nonneg (fun w hw => (hpre w hw).1)
      constructor
      · exact round2_nonneg (le_max_left _ _)
      · exact round2_le_one (max_le (by norm_num) (by linarith))

theorem length_normalizeWeights (ws : List ℚ) :
    (normalizeWeights ws).length = ws.length := by
  unfold normalizeWeights
  split
  · rw [length_roundingPass, length_rescale]
  · rfl

theorem clampQ_mem (q : ℚ) : 0 ≤ clampQ q ∧ clampQ q ≤ 1 := by
  unfold clampQ
  constructor
  · exact le_max_left _ _
  · exact max_le (by norm_num) (min_le_left _ _)

/-! ## Claim theorems: the rubric normalizer -/

/-- C1 (amended): after sanitization, normalization preserves the length of
the rubric and keeps every weight in `[0,1]`; for a non-empty rubric the
output sum is at least `0.99`, but its upper bound is `1 + 0.005·(N−1)`
rather than `1.01`: the rounding pass can push the sum above `1.01` as soon
as the rubric has more than four criteria. -/
theorem C1_normalizer_bounds (ws : List ℚ) :
    (sanitizeThenNormalize ws).length = ws.length ∧
    (∀ v ∈ sanitizeThenNormalize ws, 0 ≤ v ∧ v ≤ 1) ∧
    (ws ≠ [] → 99/100 ≤ (sanitizeThenNormalize ws).sum ∧
      (sanitizeThenNormalize ws).sum ≤ 1 + ((ws.length : ℚ) - 1) / 200) := by
  unfold sanitizeThenNormalize
  have hlen : (ws.map clampQ).length = ws.length := List.length_map ws clampQ
  have hrange : ∀ v ∈ ws.map clampQ, 0 ≤ v ∧ v ≤ 1 := by
    intro v hv
    obtain ⟨w, _, rfl⟩ := List.mem_map.mp hv
    exact clampQ_mem w
  have hnn : ∀ v ∈ ws.map clampQ, 0 ≤ v := fun v hv => (hrange v hv).1
  refine ⟨by rw [length_normalizeWeights, hlen], ?_, ?_⟩
  · intro v hv
    unfold normalizeWeights at hv
    split at hv
    · exact roundingPass_mem (rescale_mem hnn) v hv
    · exact hrange v hv
  · intro hne
    have hone : (1:ℚ) ≤ (ws.length : ℚ) := by
      exact_mod_cast List.length_pos.mpr hne
    have hcsne : ws.map clampQ ≠ [] := by
      intro h0
      exact hne (List.map_eq_nil_iff.mp h0)
    unfold normalizeWeights
    by_cases hcond : 0 < (ws.map clampQ).length ∧ 1/1000 < jsAbs ((ws.map clampQ).sum - 1)
    · rw [if_pos hcond]
      have hrs : rescale (ws.map clampQ) ≠ [] := by
        apply List.length_pos.mp
        rw [length_rescale]
        exact hcond.1
      rw [roundingPass_sum hrs]
      have hsum1 : (rescale (ws.map clampQ)).sum = 1 := rescale_sum hcsne
      have hmemr : ∀ v ∈ rescale (ws.map clampQ), 0 ≤ v :=
        fun v hv => (rescale_mem hnn v hv).1
      have hdrop : (rescale (ws.map clampQ)).dropLast.sum ≤ 1 := by
        have h := dropLast_sum_le hmemr hrs
        rw [hsum1] at h
        exact h
      have hcast : (((rescale (ws.map clampQ)).dropLast.length : ℕ) : ℚ)
          = (ws.length : ℚ) - 1 := by
        rw [List.length_dropLast, length_rescale, hlen]
        have h1 : 1 ≤ ws.length := List.length_pos.mpr hne
        push_cast [Nat.cast_sub h1]
        ring
      have hbound : roundedPrefixSum (rescale (ws.map clampQ))
          ≤ 1 + ((ws.length : ℚ) - 1) / 200 := by
        have h1 := sum_map_round2_le ((rescale (ws.map clampQ)).dropLast)
        unfold roundedPrefixSum
        rw [hcast] at h1
        linarith
      constructor
      · have h1 : (1:ℚ) ≤ max 1 (roundedPrefixSum (rescale (ws.map clampQ))) :=
          le_max_left _ _
        linarith
      · exact max_le (by linarith) hbound
    · rw [if_neg hcond]
      have hlenpos : 0 < (ws.map clampQ).length := by
        rw [hlen]
        exact List.length_pos.mpr hne
      have habs : jsAbs ((ws.map clampQ).sum - 1) ≤ 1/1000 := by
        by_contra hx
        exact hcond ⟨hlenpos, lt_of_not_le hx⟩
      rw [jsAbs_eq_abs, abs_le] at habs
      refine ⟨by linarith [habs.1], ?_⟩
      rcases Nat.lt_or_ge ws.length 2 with h2 | h2
      · have h1 : ws.length = 1 := by
          have := List.length_pos.mpr hne
          omega
        have hand : (ws.map clampQ).length = 1 := by rw [hlen, h1]
        obtain ⟨c, hc⟩ := List.length_eq_one.mp hand
        have hcmem : c ∈ ws.map clampQ := by rw [hc]; simp
        have hsumc : (ws.map clampQ).sum = c := by rw [hc]; simp
        rw [hsumc, h1]
        have := (hrange c hcmem).2
        push_cast
        linarith
      · have h2Q : (2:ℚ) ≤ (ws.length : ℚ) := by exact_mod_cast h2
        linarith [habs.2]

/-- C1 (counterexample): for the six-weight rubric
`[0.09755, 0.09755, 0.09755, 0.09755, 0.1098, 0]` (already within `[0,1]`,
summing to `0.5`), rescaling doubles every weight and the rounding pass turns
the prefix into `[0.20, 0.20, 0.20, 0.20, 0.22]` with running sum `1.02`, so
the last weight is clamped to `0` and the output sums to `1.02 > 1.01`. -/
theorem C1_counterexample :
    (sanitizeThenNormalize
      [1951/20000, 1951/20000, 1951/20000, 1951/20000, 549/5000, 0]).sum = 51/50 ∧
    ¬ (sanitizeThenNormalize
      [1951/20000, 1951/20000, 1951/20000, 1951/20000, 549/5000, 0]).sum ≤ 101/100 := by
  have h : sanitizeThenNormalize
      [1951/20000, 1951/20000, 1951/20000, 1951/20000, 549/5000, 0] =
      [1/5, 1/5, 1/5, 1/5, 11/50, 0] := by
    norm_num [sanitizeThenNormalize, normalizeWeights, jsAbs, rescale, roundingPass,
      round2, clampQ, List.dropLast]
  rw [h]
  norm_num

/-- C1 (witness): the amended bounds evaluated at the concrete two-criterion
rubric `[0.5, 0.25]`. -/
theorem C1_witness :
    (sanitizeThenNormalize [1/2, 1/4]).length = ([1/2, 1/4] : List ℚ).length ∧
    99/100 ≤ (sanitizeThenNormalize [1/2, 1/4]).sum ∧
    (sanitizeThenNormalize [1/2, 1/4]).sum
      ≤ 1 + ((([1/2, 1/4] : List ℚ).length : ℚ) - 1) / 200 := by
  obtain ⟨h1, _, h3⟩ := C1_normalizer_bounds [1/2, 1/4]
  exact ⟨h1, (h3 (by simp)).1, (h3 (by simp)).2⟩

/-- C2 (amended): whenever the rescaling branch runs, the output weights sum
to `max(1.00, runningSum)` where `runningSum` is the sum of the rounded
all-but-last weights; in particular the sum is exactly `1.00` whenever that
running sum does not exceed `1.0`, but not in general. -/
theorem C2_rounding_pass_sum (ws : List ℚ) (h0 : ws ≠ [])
    (hbr : 1/1000 < |ws.sum - 1|) :
    (normalizeWeights ws).sum = max 1 (roundedPrefixSum (rescale ws)) ∧
    (roundedPrefixSum (rescale ws) ≤ 1 → (normalizeWeights ws).sum = 1) := by
  have hcond : 0 < ws.length ∧ 1/1000 < jsAbs (ws.sum - 1) :=
    ⟨List.length_pos.mpr h0, by rw [jsAbs_eq_abs]; exact hbr⟩
  have hrs : rescale ws ≠ [] := by
    apply List.length_pos.mp
    rw [length_rescale]
    exact hcond.1
  unfold normalizeWeights
  rw [if_pos hcond, roundingPass_sum hrs]
  exact ⟨rfl, fun hle => max_eq_left hle⟩

/-- C2 (counterexample): for the clamped weights
`[0.16755, 0.16755, 0.1649, 0]` (sum `0.5`, so the rescaling branch runs),
rescaling gives `[0.3351, 0.3351, 0.3298, 0]`; the rounded prefix is
`[0.34, 0.34, 0.33]` with running sum `1.01`, the last weight becomes `0`,
and the output sums to `1.01`, not `1.00`. -/
theorem C2_counterexample :
    (1/1000 : ℚ) < |([3351/20000, 3351/20000, 3298/20000, 0] : List ℚ).sum - 1| ∧
    (normalizeWeights [3351/20000, 3351/20000, 3298/20000, 0]).sum = 101/100 ∧
    (101/100 : ℚ) ≠ 1 := by
  refine ⟨?_, ?_, by norm_num⟩
  · rw [show ([3351/20000, 3351/20000, 3298/20000, 0] : List ℚ).sum - 1 = -(1/2) by
      norm_num, abs_neg, abs_of_nonneg (by norm_num : (0:ℚ) ≤ 1/2)]
    norm_num
  · have h : normalizeWeights [3351/20000, 3351/20000, 3298/20000, 0] =
        [17/50, 17/50, 33/100, 0] := by
      norm_num [normalizeWeights, jsAbs, rescale, roundingPass, round2, List.dropLast]
    rw [h]
    norm_num

/-- C2 (witness): the amended statement evaluated at `[0.75, 0.75]`: the
branch runs, the rounded prefix sum is `0.5 ≤ 1`, and the output sums to
exactly `1`. -/
theorem C2_witness : (normalizeWeights [3/4, 3/4]).sum = 1 := by
  refine (C2_rounding_pass_sum [3/4, 3/4] (by simp) ?_).2 ?_
  · rw [show ([3/4, 3/4] : List ℚ).sum - 1 = 1/2 by norm_num,
      abs_of_nonneg (by norm_num : (0:ℚ) ≤ 1/2)]
    norm_num
  · norm_num [roundedPrefixSum, rescale, round2, List.dropLast]

/-- C3 (amended): when every weight of a non-empty rubric is `0`, the
normalizer assigns the equal weight `1.0/count` to every item and then still
applies the rounding pass; consequently the output for `[0, 0, 0]` is
`[0.33, 0.33, 0.34]` (summing to `1.00`), not `[0.333, 0.333, 0.334]`. -/
theorem C3_zero_weights (ws : List ℚ) (h0 : ws ≠ []) (hz : ∀ w ∈ ws, w = 0) :
    normalizeWeights ws =
      roundingPass (List.replicate ws.length (1 / (ws.length : ℚ))) := by
  have hsum : ws.sum = 0 := List.sum_eq_zero hz
  have hcond : 0 < ws.length ∧ 1/1000 < jsAbs (ws.sum - 1) := by
    refine ⟨List.length_pos.mpr h0, ?_⟩
    rw [hsum, jsAbs_eq_abs]
    rw [show (0:ℚ) - 1 = -1 by ring, abs_neg, abs_of_nonneg (by norm_num : (0:ℚ) ≤ 1)]
    norm_num
  unfold normalizeWeights
  rw [if_pos hcond]
  unfold rescale
  rw [if_pos hsum, List.map_const']

/-- C3 (counterexample): the normalizer maps `[0, 0, 0]` to
`[0.33, 0.33, 0.34]`, which differs from the `[0.333, 0.333, 0.334]` stated
by the claim (the rounding pass rounds to two decimal places, not three). -/
theorem C3_counterexample :
    normalizeWeights [0, 0, 0] = [33/100, 33/100, 34/100] ∧
    ([33/100, 33/100, 34/100] : List ℚ) ≠ [333/1000, 333/1000, 334/1000] ∧
    ([33/100, 33/100, 34/100] : List ℚ).sum = 1 := by
  refine ⟨?_, ?_, by norm_num⟩
  · norm_num [normalizeWeights, jsAbs, rescale, roundingPass, round2, List.dropLast]
  · intro h
    have := List.head_eq_of_cons_eq h
    norm_num at this

/-- C3 (witness): the equal-split stage evaluated at `[0, 0, 0]`. -/
theorem C3_witness :
    normalizeWeights [0, 0, 0] =
      roundingPass (List.replicate ([0, 0, 0] : List ℚ).length
        (1 / ((([0, 0, 0] : List ℚ).length : ℚ)))) := by
  exact C3_zero_weights [0, 0, 0] (by simp) (by simp)

/-- C10: when the (sanitized) weights of a non-empty rubric already sum to
within `0.001` of `1.0`, the whole normalization step is skipped and the list
is returned unchanged, including weights with more than two decimals. -/
theorem C10_identity_within_tolerance (ws : List ℚ) (_h0 : ws ≠ [])
    (h : |ws.sum - 1| ≤ 1/1000) : normalizeWeights ws = ws := by
  unfold normalizeWeights
  rw [if_neg]
  rintro ⟨-, habs⟩
  rw [jsAbs_eq_abs] at habs
  linarith

/-- C10 (witness): the four-decimal weights `[0.3335, 0.333, 0.333]` sum to
`0.9995`, within the tolerance, and pass through exactly unchanged. -/
theorem C10_witness :
    normalizeWeights [667/2000, 333/1000, 333/1000] =
      [667/2000, 333/1000, 333/1000] := by
  refine C10_identity_within_tolerance _ (by simp) ?_
  rw [show ([667/2000, 333/1000, 333/1000] : List ℚ).sum - 1 = -(1/2000) by norm_num,
    abs_neg, abs_of_nonneg (by norm_num : (0:ℚ) ≤ 1/2000)]
  norm_num

/-! ## Helper lemmas about the sanitizers -/

theorem jsOrStr_providedOr (x : Option String) (d : String) :
    ProvidedOr x d (jsOrStr x d) := by
  cases x with
  | none => exact Or.inr rfl
  | some s =>
      by_cases h : s = ""
      · exact Or.inr (by simp [jsOrStr, h])
      · exact Or.inl (by simp [jsOrStr, h])

theorem getD_providedOr {α : Type} (x : Option α) (d : α) :
    ProvidedOr x d (x.getD d) := by
  unfold ProvidedOr
  cases x with
  | none => exact Or.inr rfl
  | some a => exact Or.inl rfl

theorem jsOrNum_providedOr (x : Option ℚ) (d : ℚ) :
    ProvidedOr x d (jsOrNum x d) := by
  cases x with
  | none => exact Or.inr rfl
  | some t =>
      by_cases h : t = 0
      · exact Or.inr (by simp [jsOrNum, h])
      · exact Or.inl (by simp [jsOrNum, h])

theorem sanitizeCustQuestion_populated (q : RawCustQuestion) :
    CustQuestionPopulated q (sanitizeCustQuestion q) :=
  ⟨rfl, jsOrStr_providedOr _ _, jsOrStr_providedOr _ _, jsOrStr_providedOr _ _,
    getD_providedOr _ _, getD_providedOr _ _, getD_providedOr _ _,
    jsOrNum_providedOr _ _⟩

theorem sanitizeGenV2Question_populated (fresh : String) (q : RawGenV2Question) :
    GenV2QuestionPopulated fresh q (sanitizeGenV2Question fresh q) :=
  ⟨rfl, jsOrStr_providedOr _ _, jsOrStr_providedOr _ _, jsOrStr_providedOr _ _,
    getD_providedOr _ _, getD_providedOr _ _, getD_providedOr _ _,
    jsOrNum_providedOr _ _⟩

theorem allFinQ_length :
    ∀ {ws : List JsNum} {qs : List ℚ}, allFinQ ws = some qs → qs.length = ws.length := by
  intro ws
  induction ws with
  | nil =>
      intro qs h
      simp only [allFinQ, Option.some.injEq] at h
      subst h
      rfl
  | cons a rest ih =>
      intro qs h
      cases a with
      | fin q =>
          simp only [allFinQ] at h
          obtain ⟨l, hl, rfl⟩ := Option.map_eq_some'.mp h
          simp [ih hl]
      | nan => simp [allFinQ] at h
      | posInf => simp [allFinQ] at h
      | negInf => simp [allFinQ] at h

theorem length_jsNormalizeWeights (ws : List JsNum) :
    (jsNormalizeWeights ws).length = ws.length := by
  unfold jsNormalizeWeights
  cases hall : allFinQ ws with
  | none => rfl
  | some qs =>
      rw [List.length_map, length_normalizeWeights, allFinQ_length hall]

theorem map_id_zipWith_weights :
    ∀ (crits : List CustCriterion) (ws : List JsNum), ws.length = crits.length →
      (List.zipWith (fun c w => (⟨c.id, c.name, w⟩ : CustCriterion)) crits ws).map
          (fun c => c.id)
        = crits.map (fun c => c.id) := by
  intro crits
  induction crits with
  | nil => intro ws _; simp
  | cons c cs ih =>
      intro ws h
      cases ws with
      | nil => simp at h
      | cons w ws' =>
          simp only [List.zipWith_cons_cons, List.map_cons]
          rw [ih ws' (Nat.succ_injective h)]

theorem normalizeRubricCust_ids (crits : List CustCriterion) :
    (normalizeRubricCust crits).map (fun c => c.id) = crits.map (fun c => c.id) := by
  unfold normalizeRubricCust
  apply map_id_zipWith_weights
  rw [length_jsNormalizeWeights, List.length_map]

/-! ## Claim theorems: sanitizer and orchestrator -/

/-- C4: evaluation of the weight sanitizer.  The clamp is as documented for
finite weights and missing weights default to `0.2`, but `typeof NaN` is
`'number'`, so a `NaN` weight enters the clamp branch and
`Math.max(0, Math.min(1, NaN))` returns `NaN`, not the documented `0.2`;
likewise the infinities are clamped to `1` and `0` instead of `0.2`. -/
theorem C4_weight_sanitizer_eval :
    sanitizeWeight (some .nan) = .nan ∧
    JsNum.nan ≠ .fin (1/5) ∧
    sanitizeWeight none = .fin (1/5) ∧
    sanitizeWeight (some (.fin (3/2))) = .fin 1 ∧
    sanitizeWeight (some (.fin (-(1/2)))) = .fin 0 ∧
    sanitizeWeight (some .posInf) = .fin 1 ∧
    sanitizeWeight (some .negInf) = .fin 0 := by
  refine ⟨rfl, by simp, rfl, ?_, ?_, ?_, ?_⟩
  · norm_num [sanitizeWeight, jsMin, jsMax, min_def, max_def]
  · norm_num [sanitizeWeight, jsMin, jsMax, min_def, max_def]
  · norm_num [sanitizeWeight, jsMin, jsMax]
  · norm_num [sanitizeWeight, jsMin, jsMax]

/-- C5: category derivation evaluated at a question with missing category and
type `Technical`.  In generate variant 1 (line 158) both branches of the
conditional are `'Non-Technical'`, so the derived category is
`Non-Technical`, contradicting the claimed derivation; generate variant 2
(line 361) and the customize flow (line 132) derive `Technical` as
claimed. -/
theorem C5_category_derivation :
    (sanitizeGenV1Question ⟨none, none, some .Technical, none, none, none⟩).category
      = .NonTechnical ∧
    QuestionCategory.NonTechnical ≠ .Technical ∧
    (sanitizeGenV2Question "q-1"
      ⟨none, none, none, none, some .Technical, none, none, none⟩).category
      = .Technical ∧
    (sanitizeCustQuestion
      ⟨"q-1", none, none, none, some .Technical, none, none, none⟩).category
      = .Technical :=
  ⟨rfl, by simp, rfl, rfl⟩

/-- C6: sanitizer totality.  For every raw model output, however partial,
the sanitizers of generate variant 2 and of the customize flow produce a kit
in which every competency, question, and rubric criterion carries an id
(freshly assigned in generate, copied from the schema-required raw id in
customize) and every required field holds the provided value or the
documented default; the sanitizer is a total function by construction. -/
theorem C6_sanitizer_totality :
    (∀ (fresh : String) (o : RawGenV2Output),
      GenV2KitPopulated fresh o (sanitizeGenV2 fresh o)) ∧
    (∀ o : RawCustOutput, CustKitPopulated o (sanitizeCustOutput o)) := by
  constructor
  · intro fresh o
    constructor
    · intro c hc
      obtain ⟨rc, hrc, rfl⟩ := List.mem_map.mp hc
      refine ⟨rc, hrc, rfl, jsOrStr_providedOr _ _, getD_providedOr _ _, ?_⟩
      intro q hq
      obtain ⟨rq, hrq, rfl⟩ := List.mem_map.mp hq
      exact ⟨rq, hrq, sanitizeGenV2Question_populated fresh rq⟩
    · intro cr hcr
      obtain ⟨rr, hrr, rfl⟩ := List.mem_map.mp hcr
      obtain ⟨hmem, hkeep⟩ := List.mem_filter.mp hrr
      refine ⟨rr, hmem, rfl, ?_⟩
      unfold genV2CriterionKeep at hkeep
      rw [Bool.and_eq_true] at hkeep
      obtain ⟨hname, hw⟩ := hkeep
      cases hn : rr.name with
      | none => rw [hn] at hname; simp at hname
      | some n =>
          rw [hn] at hname
          have hne : n ≠ "" := by simpa using hname
          obtain ⟨w, hww⟩ := Option.isSome_iff_exists.mp hw
          refine ⟨by simp [sanitizeGenV2Criterion, hn], by simp [sanitizeGenV2Criterion, hn, hne], w, hww, ?_⟩
          simp [sanitizeGenV2Criterion, hww, sanitizeWeight]
  · intro o
    constructor
    · intro c hc
      obtain ⟨rc, hrc, rfl⟩ := List.mem_map.mp hc
      refine ⟨rc, hrc, rfl, jsOrStr_providedOr _ _, getD_providedOr _ _, ?_⟩
      intro q hq
      obtain ⟨rq, hrq, rfl⟩ := List.mem_map.mp hq
      exact ⟨rq, hrq, sanitizeCustQuestion_populated rq⟩
    · intro cr hcr
      obtain ⟨rr, hrr, rfl⟩ := List.mem_map.mp hcr
      exact ⟨rr, hrr, rfl, jsOrStr_providedOr _ _, rfl⟩

/-- C6 (witness): totality instantiated at the fully-empty raw outputs. -/
theorem C6_witness :
    GenV2KitPopulated "id-0" ⟨none, none⟩ (sanitizeGenV2 "id-0" ⟨none, none⟩) ∧
    CustKitPopulated ⟨none, none⟩ (sanitizeCustOutput ⟨none, none⟩) :=
  ⟨C6_sanitizer_totality.1 "id-0" ⟨none, none⟩, C6_sanitizer_totality.2 ⟨none, none⟩⟩

/-- C7: when the model call yields no structured output (`none`), both flows
fail with their thrown error and never return a kit; when structured output
is present they always return a kit, so the error is distinct from every
successful result and there is no silent empty-kit fallback. -/
theorem C7_error_on_no_output :
    generateInterviewKitFlowV1 none
      = .error "AI failed to generate interview kit content." ∧
    (∀ kit, generateInterviewKitFlowV1 none ≠ .ok kit) ∧
    (∀ o, ∃ kit, generateInterviewKitFlowV1 (some o) = .ok kit) ∧
    (∀ inp, customizeInterviewKitFlow inp none
      = .error "AI failed to customize interview kit content.") ∧
    (∀ inp kit, customizeInterviewKitFlow inp none ≠ .ok kit) ∧
    (∀ inp o, ∃ kit, customizeInterviewKitFlow inp (some o) = .ok kit) := by
  refine ⟨rfl, fun kit h => ?_, fun o => ⟨_, rfl⟩, fun inp => rfl,
    fun inp kit h => ?_, fun inp o => ⟨_, rfl⟩⟩
  · exact Except.noConfusion h
  · exact Except.noConfusion h

/-- C8 (amended): when the model omits `estimatedTimeMinutes` (or supplies
the falsy `0`), the sanitizers take it from the difficulty lookup table,
whose five values are the positive integers 2, 4, 6, 8, 10; but a provided
non-zero value passes through unvalidated, so the claimed "positive integer
for every question" does not hold in general. -/
theorem C8_time_default :
    (∀ q : RawGenV1Question,
      q.estimatedTimeMinutes = none ∨ q.estimatedTimeMinutes = some 0 →
      (sanitizeGenV1Question q).estimatedTimeMinutes
        = difficultyTimeMap (q.difficulty.getD .Intermediate)) ∧
    (∀ q : RawCustQuestion,
      q.estimatedTimeMinutes = none ∨ q.estimatedTimeMinutes = some 0 →
      (sanitizeCustQuestion q).estimatedTimeMinutes
        = difficultyTimeMap (q.difficulty.getD .Intermediate)) ∧
    (∀ d, ∃ n : ℕ, 0 < n ∧ difficultyTimeMap d = n) ∧
    difficultyTimeMap .Naive = 2 ∧ difficultyTimeMap .Beginner = 4 ∧
    difficultyTimeMap .Intermediate = 6 ∧ difficultyTimeMap .Expert = 8 ∧
    difficultyTimeMap .Master = 10 := by
  refine ⟨?_, ?_, ?_, rfl, rfl, rfl, rfl, rfl⟩
  · intro q h
    rcases h with h | h <;> simp [sanitizeGenV1Question, jsOrNum, h]
  · intro q h
    rcases h with h | h <;> simp [sanitizeCustQuestion, jsOrNum, h]
  · intro d
    cases d with
    | Naive => exact ⟨2, by norm_num, by norm_num [difficultyTimeMap]⟩
    | Beginner => exact ⟨4, by norm_num, by norm_num [difficultyTimeMap]⟩
    | Intermediate => exact ⟨6, by norm_num, by norm_num [difficultyTimeMap]⟩
    | Expert => exact ⟨8, by norm_num, by norm_num [difficultyTimeMap]⟩
    | Master => exact ⟨10, by norm_num, by norm_num [difficultyTimeMap]⟩

/-- C8 (counterexample): a model-provided `estimatedTimeMinutes` of `-5` is
truthy, passes through the sanitizer unchanged, and is not a positive
integer. -/
theorem C8_counterexample :
    (sanitizeGenV1Question
      ⟨none, none, none, none, none, some (-5)⟩).estimatedTimeMinutes = -5 ∧
    ¬ (0:ℚ) < -5 := by
  constructor
  · norm_num [sanitizeGenV1Question, jsOrNum]
  · norm_num

/-- C8 (witness): a question with difficulty `Expert` and no time gets the
table value 8. -/
theorem C8_witness :
    (sanitizeGenV1Question
      ⟨none, none, none, none, some .Expert, none⟩).estimatedTimeMinutes
      = difficultyTimeMap ((some QuestionDifficulty.Expert).getD .Intermediate) ∧
    difficultyTimeMap ((some QuestionDifficulty.Expert).getD .Intermediate) = 8 :=
  ⟨C8_time_default.1 ⟨none, none, none, none, some .Expert, none⟩ (Or.inl rfl), rfl⟩

/-- C9 (amended): the customize post-processing copies every competency,
question, and rubric-criterion id verbatim from the model's raw output and
never regenerates or alters one; preservation relative to the input kit is
delegated to the model (the prompt instructs it to echo ids) and holds
exactly when the model does echo them. -/
theorem C9_ids_from_model_output (inp : CustomizeInput) (o : RawCustOutput) :
    ∃ kit, customizeInterviewKitFlow inp (some o) = .ok kit ∧
      kit.competencies.map (fun c => c.id)
        = (o.competencies.getD []).map (fun c => c.id) ∧
      kit.competencies.map (fun c => c.questions.map (fun q => q.id))
        = (o.competencies.getD []).map
            (fun c => (c.questions.getD []).map (fun q => q.id)) ∧
      kit.scoringRubric.map (fun c => c.id)
        = (o.scoringRubric.getD []).map (fun c => c.id) := by
  refine ⟨postProcessCust o, rfl, ?_, ?_, ?_⟩
  · simp [postProcessCust, sanitizeCustOutput, sanitizeCustCompetency, List.map_map,
      Function.comp]
  · simp [postProcessCust, sanitizeCustOutput, sanitizeCustCompetency,
      sanitizeCustQuestion, List.map_map, Function.comp]
  · show (normalizeRubricCust (sanitizeCustOutput o).scoringRubric).map (fun c => c.id) = _
    rw [normalizeRubricCust_ids]
    simp [sanitizeCustOutput, sanitizeCustCriterion, List.map_map, Function.comp]

/-- C9 (counterexample): the input kit holds a rubric criterion with id "a";
the model's response renames it to "b"; the returned kit carries "b", so ids
are not preserved relative to the input kit. -/
theorem C9_counterexample :
    custFlowRubricIds (customizeInterviewKitFlow c9Input (some c9ModelOutput))
      = some ["b"] ∧
    c9Input.scoringRubric.map (fun c => c.id) = ["a"] ∧
    (some ["b"] : Option (List String)) ≠ some ["a"] := by
  refine ⟨?_, rfl, by simp⟩
  norm_num [custFlowRubricIds, customizeInterviewKitFlow, postProcessCust,
    sanitizeCustOutput, c9ModelOutput, sanitizeCustCriterion, sanitizeWeight,
    jsMin, jsMax, normalizeRubricCust, jsNormalizeWeights, allFinQ,
    normalizeWeights, jsAbs, min_def, max_def]
